import Mathlib

/-!
Verification of the `bunnydb-http` pipeline client.

We shallowly embed the pipeline encoder/decoder and the request-execution
engine from `src/client.rs` and `src/decode.rs`:

* Rust strings that are manipulated character-wise (numeric wire payloads,
  named-parameter names, authorization tokens) are modelled as `List Char`;
  other strings as Lean `String`.
* `i64` values are modelled as `Int` with the range `-2^63 ≤ i < 2^63`
  stated explicitly where it matters.
* `f64` is external to the claims except through Rust's `Display`/`FromStr`
  contract, so floats are modelled by an abstract type `F` together with a
  bundle `FloatOps` of the three standard-library operations the code calls
  (`is_finite`, `to_string`, `parse`).  Theorems that need the documented
  round-trip guarantee of `f64` formatting take it as a hypothesis.
* Fallible Rust functions returning `Result<T, BunnyDbError>` become
  `Except BunnyDbError T`.
-/

namespace BunnyDb

deriving instance DecidableEq for Except

/-! ## Decimal integer codec

`i64::to_string` and `str::parse::<i64>` from the Rust standard library,
used by `encode_value`, `decode_value` and `decode_exec_result` in
`src/decode.rs`.  `to_string` prints the value in decimal, with a leading
`-` for negative values; `parse` accepts an optional `+`/`-` sign followed
by at least one ASCII digit and fails on any other character or when the
value overflows the `i64` range. -/

/-- The ASCII digit character for `d < 10`. -/
def digitChar (d : Nat) : Char := Char.ofNat (48 + d)

/-- Whether `c` is an ASCII digit `'0'..'9'`. -/
def isDigitChar (c : Char) : Bool := decide ('0' ≤ c) && decide (c ≤ '9')

/-- Numeric value of an ASCII digit character. -/
def charToDigit (c : Char) : Nat := c.toNat - 48

/-- Decimal representation of a natural number, most significant digit
first; `0` prints as `"0"`. -/
def natToDecimal (n : Nat) : List Char :=
  if n = 0 then ['0'] else ((Nat.digits 10 n).map digitChar).reverse

/-- Parses a nonempty all-digit string to its value (the digit-accumulation
part of Rust's integer `FromStr`). -/
def parseNatDigits (l : List Char) : Option Nat :=
  if l.isEmpty then none
  else if l.all isDigitChar then
    some (Nat.ofDigits 10 ((l.map charToDigit).reverse))
  else none

/-- `i64::to_string`: decimal digits with a `-` sign for negatives. -/
def intToDecimal (i : Int) : List Char :=
  if i < 0 then '-' :: natToDecimal i.natAbs else natToDecimal i.toNat

/-- The `i64` range. -/
def i64Range (i : Int) : Prop := -(2 ^ 63) ≤ i ∧ i < 2 ^ 63

instance (i : Int) : Decidable (i64Range i) := by unfold i64Range; infer_instance

/-- `str::parse::<i64>`: optional sign, digits, in-range check (Rust's
step-by-step checked accumulation overflows exactly when the final value
is out of range, since the accumulated magnitude is monotone). -/
def parseI64 (l : List Char) : Option Int :=
  let neg : Bool := l.head? = some '-'
  let rest : List Char :=
    if l.head? = some '-' || l.head? = some '+' then l.tail else l
  match parseNatDigits rest with
  | none => none
  | some n =>
    let v : Int := if neg then -(n : Int) else (n : Int)
    if i64Range v then some v else none

lemma isDigitChar_digitChar {d : Nat} (hd : d < 10) :
    isDigitChar (digitChar d) = true := by
  interval_cases d <;> decide

lemma charToDigit_digitChar {d : Nat} (hd : d < 10) :
    charToDigit (digitChar d) = d := by
  interval_cases d <;> decide

lemma natToDecimal_ne_nil (n : Nat) : natToDecimal n ≠ [] := by
  unfold natToDecimal
  split
  · simp
  · next h =>
    simp only [ne_eq, List.reverse_eq_nil_iff, List.map_eq_nil_iff]
    exact Nat.digits_ne_nil_iff_ne_zero.mpr h

lemma natToDecimal_all_digits {n : Nat} {c : Char} (hc : c ∈ natToDecimal n) :
    isDigitChar c = true := by
  unfold natToDecimal at hc
  split at hc
  · simp at hc; subst hc; decide
  · simp only [List.mem_reverse, List.mem_map] at hc
    obtain ⟨d, hd, rfl⟩ := hc
    exact isDigitChar_digitChar (Nat.digits_lt_base (by norm_num) hd)

lemma parseNatDigits_natToDecimal (n : Nat) :
    parseNatDigits (natToDecimal n) = some n := by
  unfold parseNatDigits
  rw [if_neg (by simpa [List.isEmpty_iff] using natToDecimal_ne_nil n)]
  rw [if_pos (by

    simpa [List.all_eq_true] using fun c hc => natToDecimal_all_digits hc)]
  congr 1
  unfold natToDecimal
  split
  · next h => subst h; decide
  · next h =>
    rw [List.map_reverse, List.reverse_reverse, List.map_map]
    have hcd : ∀ d ∈ Nat.digits 10 n, (charToDigit ∘ digitChar) d = id d :=
      fun d hd => charToDigit_digitChar (Nat.digits_lt_base (by norm_num) hd)
    rw [List.map_congr_left hcd, List.map_id, Nat.ofDigits_digits]

lemma head_natToDecimal_digit (n : Nat) :
    ∃ c cs, natToDecimal n = c :: cs ∧ isDigitChar c = true := by
  rcases h : natToDecimal n with _ | ⟨c, cs⟩
  · exact absurd h (natToDecimal_ne_nil n)
  · exact ⟨c, cs, rfl, natToDecimal_all_digits (h ▸ List.mem_cons_self c cs)⟩

lemma isDigitChar_ne_sign {c : Char} (h : isDigitChar c = true) :
    c ≠ '-' ∧ c ≠ '+' := by
  constructor <;> rintro rfl <;> simp [isDigitChar] at h

lemma parseI64_cons_nosign {c : Char} (h1 : c ≠ '-') (h2 : c ≠ '+') (cs : List Char) :
    parseI64 (c :: cs) =
      match parseNatDigits (c :: cs) with
      | none => none
      | some n => if i64Range (n : Int) then some (n : Int) else none := by
  unfold parseI64
  simp [h1, h2]

lemma parseI64_neg_sign (cs : List Char) :
    parseI64 ('-' :: cs) =
      match parseNatDigits cs with
      | none => none
      | some n => if i64Range (-(n : Int)) then some (-(n : Int)) else none := by
  unfold parseI64
  simp

/-- Round-trip of the decimal codec on every `i64` value. -/
lemma parseI64_intToDecimal {i : Int} (hi : i64Range i) :
    parseI64 (intToDecimal i) = some i := by
  unfold intToDecimal
  by_cases hneg : i < 0
  · rw [if_pos hneg, parseI64_neg_sign, parseNatDigits_natToDecimal]
    have habs : -((i.natAbs : Nat) : Int) = i := by omega
    simp only [habs]
    rw [if_pos hi]
  · rw [if_neg hneg]
    obtain ⟨c, cs, hrepr, hdig⟩ := head_natToDecimal_digit i.toNat
    obtain ⟨hn1, hn2⟩ := isDigitChar_ne_sign hdig
    rw [hrepr, parseI64_cons_nosign hn1 hn2, ← hrepr, parseNatDigits_natToDecimal]
    have htoNat : ((i.toNat : Nat) : Int) = i := Int.toNat_of_nonneg (not_lt.mp hneg)
    simp only [htoNat]
    rw [if_pos hi]

/-! ## Float operations

The code calls three `f64` operations from the Rust standard library:
`f64::is_finite`, `Display` (`to_string`, producing the shortest decimal
string that round-trips) and `str::parse::<f64>`.  Floats themselves are
external to every claim except through these operations, so we model `f64`
as an abstract type `F` and bundle the operations. -/

/-- The `f64` standard-library operations used by `src/decode.rs`. -/
structure FloatOps (F : Type) where
  isFinite : F → Bool
  toStr : F → List Char
  parse : List Char → Option F

/-! ## Data model (`src/value.rs`, `src/params.rs`, `src/wire.rs`,
`src/types.rs`, `src/error.rs`, `src/options.rs`) -/

/-- `wire::Value`: the transport-safe, string-encoded value
(`src/wire.rs`).  Numeric payloads are decimal strings. -/
inductive WireValue where
  | Null : WireValue
  | Integer (value : List Char) : WireValue
  | Float (value : List Char) : WireValue
  | Text (value : String) : WireValue
  | Blob (base64 : String) : WireValue
deriving DecidableEq

/-- Logical `Value` (`src/value.rs`), parameterized by the float type. -/
inductive Value (F : Type) where
  | Null : Value F
  | Integer (value : Int) : Value F
  | Float (value : F) : Value F
  | Text (value : String) : Value F
  | BlobBase64 (value : String) : Value F
deriving DecidableEq

/-- `Params` (`src/params.rs`): positional or named parameter container.
Named-parameter names are manipulated character-wise, hence `List Char`. -/
inductive Params (F : Type) where
  | Positional (values : List (Value F)) : Params F
  | Named (values : List (List Char × Value F)) : Params F
deriving DecidableEq

/-- `Statement` (`src/params.rs`). -/
structure Statement (F : Type) where
  sql : String
  params : Params F
  want_rows : Bool

/-- `wire::NamedArg`. -/
structure NamedArg where
  name : List Char
  value : WireValue
deriving DecidableEq

/-- `wire::ExecuteStatement`. -/
structure ExecuteStatement where
  sql : String
  args : Option (List WireValue)
  named_args : Option (List NamedArg)
  want_rows : Bool
deriving DecidableEq

/-- `wire::Request`: one entry of the pipeline payload. -/
inductive Request where
  | Execute (stmt : ExecuteStatement) : Request
  | Close : Request
deriving DecidableEq

/-- `wire::PipelineRequest`. -/
structure PipelineRequest where
  requests : List Request
deriving DecidableEq

/-- `wire::Col`. -/
structure ColW where
  name : String
  decltype : Option String
deriving DecidableEq

/-- `wire::ExecuteResult`: the raw execute payload of an "ok" response.
`query_duration_ms` is a native JSON number (`f64`), carried through
untouched, hence the `F` parameter. -/
structure ExecuteResultW (F : Type) where
  cols : List ColW
  rows : List (List WireValue)
  affected_row_count : Nat
  last_insert_rowid : Option (List Char)
  replication_index : Option String
  rows_read : Option Nat
  rows_written : Option Nat
  query_duration_ms : Option F
deriving DecidableEq

/-- `wire::PipelineError`. -/
structure PipelineErrorW where
  message : String
  code : Option String
deriving DecidableEq

/-- `wire::ResponseEnvelope`. -/
structure ResponseEnvelope (F : Type) where
  kind : String
  result : Option (ExecuteResultW F)
deriving DecidableEq

/-- `wire::PipelineResult`: tagged "ok"/"error" result entry. -/
structure PipelineResult (F : Type) where
  kind : String
  response : Option (ResponseEnvelope F)
  error : Option PipelineErrorW
deriving DecidableEq

/-- `wire::PipelineResponse`. -/
structure PipelineResponse (F : Type) where
  baton : Option String
  base_url : Option String
  results : List (PipelineResult F)
deriving DecidableEq

/-- Transport-error classification flags of `reqwest::Error`
(`is_timeout`, `is_request`, `is_body`, `is_connect`). -/
structure ReqErr where
  is_timeout : Bool
  is_request : Bool
  is_body : Bool
  is_connect : Bool
deriving DecidableEq

/-- `BunnyDbError` (`src/error.rs`). -/
inductive BunnyDbError where
  | Transport (e : ReqErr) : BunnyDbError
  | Http (status : Nat) (body : String) : BunnyDbError
  | Pipeline (request_index : Nat) (message : String) (code : Option String) :
      BunnyDbError
  | Decode (msg : String) : BunnyDbError
deriving DecidableEq

/-- Whether an `Except` result is a `Decode`-class failure. -/
def isDecodeErr {α : Type} : Except BunnyDbError α → Bool
  | .error (.Decode _) => true
  | _ => false

/-- `Col` (`src/types.rs`). -/
structure Col where
  name : String
  decltype : Option String
deriving DecidableEq

/-- `QueryResult` (`src/types.rs`). -/
structure QueryResult (F : Type) where
  cols : List Col
  rows : List (List (Value F))
  replication_index : Option String
  rows_read : Option Nat
  rows_written : Option Nat
  query_duration_ms : Option F
deriving DecidableEq

/-- `ExecResult` (`src/types.rs`). -/
structure ExecResult where
  affected_row_count : Nat
  last_insert_rowid : Option Int
  replication_index : Option String
  rows_read : Option Nat
  rows_written : Option Nat
deriving DecidableEq

/-- `StatementOutcome` (`src/types.rs`): per-statement batch outcome. -/
inductive StatementOutcome (F : Type) where
  | Query (result : QueryResult F) : StatementOutcome F
  | Exec (result : ExecResult) : StatementOutcome F
  | SqlError (request_index : Nat) (message : String) (code : Option String) :
      StatementOutcome F
deriving DecidableEq

/-- `ClientOptions` (`src/options.rs`). -/
structure ClientOptions where
  timeout_ms : Nat
  max_retries : Nat
  retry_backoff_ms : Nat
deriving DecidableEq

/-! ## Encoder/decoder (`src/decode.rs`) -/

/-- `decode_value`: wire value → logical value. -/
def decode_value {F : Type} (fo : FloatOps F) :
    WireValue → Except BunnyDbError (Value F)
  | .Null => .ok .Null
  | .Integer value =>
    match parseI64 value with
    | some i => .ok (.Integer i)
    | none =>
      .error (.Decode ("invalid integer value '" ++ String.mk value ++ "'"))
  | .Float value =>
    match fo.parse value with
    | none =>
      .error (.Decode ("invalid float value '" ++ String.mk value ++ "'"))
    | some parsed =>
      if fo.isFinite parsed then .ok (.Float parsed)
      else
        .error (.Decode ("non-finite float value '" ++ String.mk value ++
          "' is unsupported"))
  | .Text value => .ok (.Text value)
  | .Blob base64 => .ok (.BlobBase64 base64)

/-- `encode_value`: logical value → wire value; rejects non-finite
floats. -/
def encode_value {F : Type} (fo : FloatOps F) :
    Value F → Except BunnyDbError WireValue
  | .Null => .ok .Null
  | .Integer value => .ok (.Integer (intToDecimal value))
  | .Float value =>
    if fo.isFinite value = false then
      .error (.Decode ("non-finite float value '" ++
        String.mk (fo.toStr value) ++ "' is unsupported"))
    else .ok (.Float (fo.toStr value))
  | .Text value => .ok (.Text value)
  | .BlobBase64 base64 => .ok (.Blob base64)

/-- Rust's `Iterator::collect::<Result<Vec<_>, _>>`: apply `f` to each
element in order, short-circuiting at the first error. -/
def collectExcept {α β : Type} (f : α → Except BunnyDbError β) :
    List α → Except BunnyDbError (List β)
  | [] => .ok []
  | a :: rest =>
    match f a with
    | .error e => .error e
    | .ok b =>
      match collectExcept f rest with
      | .error e => .error e
      | .ok bs => .ok (b :: bs)

/-- The named-parameter prefix characters `:`, `@`, `$`. -/
def isNameSigil (c : Char) : Bool := c = ':' || c = '@' || c = '$'

/-- `normalize_named_parameter_name`: `trim_start_matches([':','@','$'])`
removes every leading matching character; an empty remainder is an
error. -/
def normalize_named_parameter_name (name : List Char) :
    Except BunnyDbError (List Char) :=
  let normalized := name.dropWhile isNameSigil
  if normalized.isEmpty then
    .error (.Decode "named parameter name cannot be empty")
  else .ok normalized

/-- The per-pair encoding step of the named branch of
`build_execute_statement` (the closure passed to `map` in decode.rs
lines 28-32). -/
def encode_named_pair {F : Type} (fo : FloatOps F) (p : List Char × Value F) :
    Except BunnyDbError NamedArg :=
  match normalize_named_parameter_name p.1 with
  | .error e => .error e
  | .ok name =>
    match encode_value fo p.2 with
    | .error e => .error e
    | .ok value => .ok (⟨name, value⟩ : NamedArg)

/-- `build_execute_statement`: builds the wire statement from the
parameter container; empty collections are omitted from the payload. -/
def build_execute_statement {F : Type} (fo : FloatOps F) (sql : String)
    (params : Params F) (want_rows : Bool) :
    Except BunnyDbError ExecuteStatement :=
  match params with
  | .Positional values =>
    match collectExcept (encode_value fo) values with
    | .error e => .error e
    | .ok args =>
      .ok { sql := sql
            args := if args.isEmpty then none else some args
            named_args := none
            want_rows := want_rows }
  | .Named values =>
    match collectExcept (encode_named_pair fo) values with
    | .error e => .error e
    | .ok named_args =>
      .ok { sql := sql
            args := none
            named_args := if named_args.isEmpty then none else some named_args
            want_rows := want_rows }

/-- `decode_query_result`. -/
def decode_query_result {F : Type} (fo : FloatOps F) (result : ExecuteResultW F) :
    Except BunnyDbError (QueryResult F) :=
  match collectExcept (fun row => collectExcept (decode_value fo) row)
      result.rows with
  | .error e => .error e
  | .ok rows =>
    .ok { cols := result.cols.map fun col => (⟨col.name, col.decltype⟩ : Col)
          rows := rows
          replication_index := result.replication_index
          rows_read := result.rows_read
          rows_written := result.rows_written
          query_duration_ms := result.query_duration_ms }

/-- `decode_exec_result`. -/
def decode_exec_result {F : Type} (result : ExecuteResultW F) :
    Except BunnyDbError ExecResult :=
  match result.last_insert_rowid with
  | none =>
    .ok { affected_row_count := result.affected_row_count
          last_insert_rowid := none
          replication_index := result.replication_index
          rows_read := result.rows_read
          rows_written := result.rows_written }
  | some value =>
    match parseI64 value with
    | some i =>
      .ok { affected_row_count := result.affected_row_count
            last_insert_rowid := some i
            replication_index := result.replication_index
            rows_read := result.rows_read
            rows_written := result.rows_written }
    | none =>
      .error (.Decode ("invalid last_insert_rowid '" ++ String.mk value ++ "'"))

/-! ## Result demultiplexing (`src/client.rs`) -/

/-- `BunnyDbClient::into_execute_result` (client.rs lines 347-386). -/
def into_execute_result {F : Type} (result : PipelineResult F)
    (request_index : Nat) : Except BunnyDbError (ExecuteResultW F) :=
  if result.kind = "ok" then
    match result.response with
    | none =>
      .error (.Decode ("missing response payload for request " ++
        toString request_index))
    | some response =>
      if response.kind ≠ "execute" then
        .error (.Decode ("expected execute response at request " ++
          toString request_index ++ ", got '" ++ response.kind ++ "'"))
      else
        match response.result with
        | none =>
          .error (.Decode ("missing execute result payload at request " ++
            toString request_index))
        | some r => .ok r
  else if result.kind = "error" then
    match result.error with
    | none =>
      .error (.Decode ("missing error payload for request " ++
        toString request_index))
    | some error => .error (.Pipeline request_index error.message error.code)
  else
    .error (.Decode ("unknown pipeline result type '" ++ result.kind ++
      "' at request " ++ toString request_index))

/-- `BunnyDbClient::ensure_close_success` (client.rs lines 388-420). -/
def ensure_close_success {F : Type} (result : PipelineResult F)
    (request_index : Nat) : Except BunnyDbError Unit :=
  if result.kind = "ok" then
    match result.response with
    | none =>
      .error (.Decode ("missing close response payload for request " ++
        toString request_index))
    | some response =>
      if response.kind ≠ "close" then
        .error (.Decode ("expected close response at request " ++
          toString request_index ++ ", got '" ++ response.kind ++ "'"))
      else .ok ()
  else if result.kind = "error" then
    match result.error with
    | none =>
      .error (.Decode ("missing error payload for close request " ++
        toString request_index))
    | some error => .error (.Pipeline request_index error.message error.code)
  else
    .error (.Decode ("unknown pipeline result type '" ++ result.kind ++
      "' at request " ++ toString request_index))

/-- `BunnyDbClient::decode_statement_outcome` (client.rs lines 313-345). -/
def decode_statement_outcome {F : Type} (fo : FloatOps F)
    (result : PipelineResult F) (request_index : Nat) (want_rows : Bool) :
    Except BunnyDbError (StatementOutcome F) :=
  if result.kind = "ok" then
    match into_execute_result result request_index with
    | .error e => .error e
    | .ok execute_result =>
      if want_rows then
        match decode_query_result fo execute_result with
        | .error e => .error e
        | .ok q => .ok (.Query q)
      else
        match decode_exec_result execute_result with
        | .error e => .error e
        | .ok ex => .ok (.Exec ex)
  else if result.kind = "error" then
    match result.error with
    | none =>
      .error (.Decode ("missing error payload for request " ++
        toString request_index))
    | some error =>
      .ok (.SqlError request_index error.message error.code)
  else
    .error (.Decode ("unknown pipeline result type '" ++ result.kind ++
      "' at request " ++ toString request_index))

/-- The response-shape validation and demultiplexing of `run_single`
(client.rs lines 239-256): length must be exactly 2, the first result an
"ok" execute payload, the second a successful close. -/
def run_single_decode {F : Type} (response : PipelineResponse F) :
    Except BunnyDbError (ExecuteResultW F) :=
  if response.results.length ≠ 2 then
    .error (.Decode ("result count mismatch: expected 2, got " ++
      toString response.results.length))
  else
    match response.results with
    | execute :: close :: _ =>
      match into_execute_result execute 0 with
      | .error e => .error e
      | .ok execute_result =>
        match ensure_close_success close 1 with
        | .error e => .error e
        | .ok _ => .ok execute_result
    | _ => .error (.Decode "missing execute result")

/-- The per-statement decoding loop of `batch` (client.rs lines 208-221):
consumes one result per `want_rows` entry, returning the outcomes and the
unconsumed remainder of the results iterator. -/
def decode_outcomes {F : Type} (fo : FloatOps F) :
    List Bool → List (PipelineResult F) → Nat →
    Except BunnyDbError (List (StatementOutcome F) × List (PipelineResult F))
  | [], results, _ => .ok ([], results)
  | _ :: _, [], index =>
    .error (.Decode ("missing execute result at index " ++ toString index))
  | want_rows :: wants, result :: results, index =>
    match decode_statement_outcome fo result index want_rows with
    | .error e => .error e
    | .ok outcome =>
      match decode_outcomes fo wants results (index + 1) with
      | .error e => .error e
      | .ok (outcomes, rest) => .ok (outcome :: outcomes, rest)

/-- The post-transport part of `batch` (client.rs lines 200-224): length
check, per-statement demultiplexing, strict close validation. -/
def batch_decode {F : Type} (fo : FloatOps F) (wants_rows : List Bool)
    (response : PipelineResponse F) :
    Except BunnyDbError (List (StatementOutcome F)) :=
  if response.results.length ≠ wants_rows.length + 1 then
    .error (.Decode ("result count mismatch: expected " ++
      toString (wants_rows.length + 1) ++ ", got " ++
      toString response.results.length))
  else
    match decode_outcomes fo wants_rows response.results 0 with
    | .error e => .error e
    | .ok (outcomes, rest) =>
      match rest with
      | [] =>
        .error (.Decode ("missing close result at index " ++
          toString outcomes.length))
      | close :: _ =>
        match ensure_close_success close outcomes.length with
        | .error e => .error e
        | .ok _ => .ok outcomes

/-! ## Retry loop (`send_pipeline_with_retry`, client.rs lines 259-311)

One HTTP attempt is an `AttemptOutcome`: either the send itself fails with
a classified `reqwest` error, or a status arrives together with the result
of reading the body text (which can itself fail with a transport error —
the code surfaces that immediately, before any retry check).  The loop is
given an oracle mapping the attempt number to its outcome, and JSON
deserialization of the successful body as a function parameter.  The code
retries while `attempt < max_retries`; we recurse structurally on
`remaining = max_retries - attempt`, so `remaining = 0` is exactly
`attempt ≥ max_retries`. -/

/-- Outcome of one HTTP attempt as seen by the retry loop. -/
inductive AttemptOutcome where
  | sendFailure (e : ReqErr) : AttemptOutcome
  | httpResponse (status : Nat) (bodyResult : Except ReqErr String) :
      AttemptOutcome

/-- `StatusCode::is_success`: `200..=299`. -/
def is_success (status : Nat) : Bool := 200 ≤ status && status ≤ 299

/-- `BunnyDbClient::should_retry_status` (client.rs lines 422-431). -/
def should_retry_status (status : Nat) : Bool :=
  status = 429 || status = 500 || status = 502 || status = 503 || status = 504

/-- `BunnyDbClient::should_retry_transport` (client.rs lines 433-444),
native target (`is_connect` available). -/
def should_retry_transport (e : ReqErr) : Bool :=
  e.is_timeout || e.is_request || e.is_body || e.is_connect

/-- The delay computed by `wait_before_retry` (client.rs lines 451-465):
`exp = attempt.min(16)`, `multiplier = 1u64 << exp` (exact, since
`exp ≤ 16 < 64`), and `retry_backoff_ms.saturating_mul(multiplier)`,
which on `u64` is `min (a * b) (2^64 - 1)`. -/
def wait_delay (retry_backoff_ms attempt : Nat) : Nat :=
  let exp := min attempt 16
  let multiplier := 1 <<< exp
  min (retry_backoff_ms * multiplier) (2 ^ 64 - 1)

/-- What the loop does to an attempt outcome when no retry is taken
(the fall-through of client.rs lines 277-309): body-read failures and
send failures surface as `Transport`, non-2xx as `Http`, and a 2xx body
is JSON-parsed into the response shape or fails with `Decode`. -/
def attempt_terminal {F : Type} (parseResp : String → Option (PipelineResponse F)) :
    AttemptOutcome → Except BunnyDbError (PipelineResponse F)
  | .sendFailure e => .error (.Transport e)
  | .httpResponse _ (.error e) => .error (.Transport e)
  | .httpResponse status (.ok body) =>
    if is_success status = false then .error (.Http status body)
    else
      match parseResp body with
      | some response => .ok response
      | none =>
        .error (.Decode ("invalid pipeline response JSON; body: " ++ body))

/-- Trace of one `send_pipeline_with_retry` run: final result, the payload
posted by each attempt (in order), and the backoff delay waited before
each retry. -/
structure SendOutcome (F : Type) where
  result : Except BunnyDbError (PipelineResponse F)
  posts : List PipelineRequest
  delays : List Nat

/-- The retry loop of `send_pipeline_with_retry`.  `attempt` is the
current attempt number; `remaining = max_retries - attempt` is how many
retries are still allowed (the code's guard `attempt < max_retries`). -/
def retry_loop {F : Type} (oracle : Nat → AttemptOutcome)
    (parseResp : String → Option (PipelineResponse F))
    (payload : PipelineRequest) (retry_backoff_ms : Nat) :
    Nat → Nat → SendOutcome F
  | attempt, 0 =>
    { result := attempt_terminal parseResp (oracle attempt)
      posts := [payload]
      delays := [] }
  | attempt, r + 1 =>
    let retryStep : SendOutcome F :=
      let rest := retry_loop oracle parseResp payload retry_backoff_ms
        (attempt + 1) r
      { result := rest.result
        posts := payload :: rest.posts
        delays := wait_delay retry_backoff_ms attempt :: rest.delays }
    let terminal : SendOutcome F :=
      { result := attempt_terminal parseResp (oracle attempt)
        posts := [payload]
        delays := [] }
    match oracle attempt with
    | .sendFailure e =>
      if should_retry_transport e then retryStep else terminal
    | .httpResponse _ (.error _) => terminal
    | .httpResponse status (.ok _) =>
      if is_success status = false && should_retry_status status then retryStep
      else terminal

/-- `send_pipeline_with_retry`: start at attempt 0 with `max_retries`
retries still allowed. -/
def send_pipeline_with_retry {F : Type} (opts : ClientOptions)
    (oracle : Nat → AttemptOutcome)
    (parseResp : String → Option (PipelineResponse F))
    (payload : PipelineRequest) : SendOutcome F :=
  retry_loop oracle parseResp payload opts.retry_backoff_ms 0 opts.max_retries

/-! ## Full calls (`run_single`, `query`, `execute`, `batch`) -/

/-- `BunnyDbClient::run_single` (client.rs lines 227-257).  Returns the
call result together with the list of payloads actually posted, so that
"no request is sent" is visible in the model. -/
def run_single {F : Type} (fo : FloatOps F) (opts : ClientOptions)
    (oracle : Nat → AttemptOutcome)
    (parseResp : String → Option (PipelineResponse F)) (sql : String)
    (params : Params F) (want_rows : Bool) :
    Except BunnyDbError (ExecuteResultW F) × List PipelineRequest :=
  match build_execute_statement fo sql params want_rows with
  | .error e => (.error e, [])
  | .ok execute_stmt =>
    let payload : PipelineRequest := ⟨[.Execute execute_stmt, .Close]⟩
    let so := send_pipeline_with_retry opts oracle parseResp payload
    match so.result with
    | .error e => (.error e, so.posts)
    | .ok response => (run_single_decode response, so.posts)

/-- `BunnyDbClient::query` (client.rs lines 166-169). -/
def query {F : Type} (fo : FloatOps F) (opts : ClientOptions)
    (oracle : Nat → AttemptOutcome)
    (parseResp : String → Option (PipelineResponse F)) (sql : String)
    (params : Params F) :
    Except BunnyDbError (QueryResult F) × List PipelineRequest :=
  match run_single fo opts oracle parseResp sql params true with
  | (.error e, posts) => (.error e, posts)
  | (.ok result, posts) => (decode_query_result fo result, posts)

/-- `BunnyDbClient::execute` (client.rs lines 172-175). -/
def execute {F : Type} (fo : FloatOps F) (opts : ClientOptions)
    (oracle : Nat → AttemptOutcome)
    (parseResp : String → Option (PipelineResponse F)) (sql : String)
    (params : Params F) :
    Except BunnyDbError ExecResult × List PipelineRequest :=
  match run_single fo opts oracle parseResp sql params false with
  | (.error e, posts) => (.error e, posts)
  | (.ok result, posts) => (decode_exec_result result, posts)

/-- `BunnyDbClient::batch` (client.rs lines 181-225). -/
def batch {F : Type} (fo : FloatOps F) (opts : ClientOptions)
    (oracle : Nat → AttemptOutcome)
    (parseResp : String → Option (PipelineResponse F))
    (statements : List (Statement F)) :
    Except BunnyDbError (List (StatementOutcome F)) × List PipelineRequest :=
  match collectExcept
      (fun st => build_execute_statement fo st.sql st.params st.want_rows)
      statements with
  | .error e => (.error e, [])
  | .ok built =>
    let wants_rows := statements.map (fun st => st.want_rows)
    let payload : PipelineRequest :=
      ⟨built.map (fun stmt => Request.Execute stmt) ++ [.Close]⟩
    let so := send_pipeline_with_retry opts oracle parseResp payload
    match so.result with
    | .error e => (.error e, so.posts)
    | .ok response => (batch_decode fo wants_rows response, so.posts)

/-! ## Bearer normalization (`normalize_bearer_authorization`,
`new_bearer`, `from_db_id`; client.rs lines 20-22, 48-89, 468-476)

Tokens are modelled as `List Char`.  Rust's `trimmed.get(..7)` slices the
first seven BYTES (returning `None` off a UTF-8 boundary); since a
successful ASCII case-insensitive comparison with `"bearer "` forces those
seven bytes to be seven one-byte characters, the byte-level slice and the
character-level `take 7` agree on which branch is taken, so we model the
slice at character level. -/

/-- `char::is_whitespace`: the Unicode `White_Space` code points, used by
`str::trim`. -/
def isRustWhitespace (c : Char) : Bool :=
  let n := c.toNat
  (9 ≤ n && n ≤ 13) || n = 32 || n = 133 || n = 160 || n = 5760 ||
    (8192 ≤ n && n ≤ 8202) || n = 8232 || n = 8233 || n = 8239 ||
    n = 8287 || n = 12288

/-- `str::trim`: drop whitespace from both ends. -/
def rustTrim (l : List Char) : List Char :=
  ((l.dropWhile isRustWhitespace).reverse.dropWhile isRustWhitespace).reverse

/-- ASCII lowercasing of one character (`u8::to_ascii_lowercase`). -/
def asciiLower (c : Char) : Char :=
  if 'A' ≤ c ∧ c ≤ 'Z' then Char.ofNat (c.toNat + 32) else c

/-- `str::eq_ignore_ascii_case`. -/
def eqIgnoreAsciiCase (a b : List Char) : Bool :=
  a.map asciiLower = b.map asciiLower

/-- The literal `"bearer "` compared against. -/
def bearerLower : List Char := ['b', 'e', 'a', 'r', 'e', 'r', ' ']

/-- The literal `"Bearer "` prepended when the scheme is missing. -/
def bearerScheme : List Char := ['B', 'e', 'a', 'r', 'e', 'r', ' ']

/-- `trimmed.get(..7)` (see the section comment for the byte/char
equivalence). -/
def firstSeven (l : List Char) : Option (List Char) :=
  if 7 ≤ l.length then some (l.take 7) else none

/-- `normalize_bearer_authorization` (client.rs lines 468-476). -/
def normalize_bearer_authorization (token : List Char) : List Char :=
  let trimmed := rustTrim token
  match firstSeven trimmed with
  | some value =>
    if eqIgnoreAsciiCase value bearerLower then trimmed
    else bearerScheme ++ trimmed
  | none => bearerScheme ++ trimmed

/-- The credential-bearing part of `BunnyDbClient` set by the
constructors; `token` is sent verbatim as the `Authorization` header on
every attempt (client.rs line 270). -/
structure ClientAuth where
  pipeline_url : String
  token : List Char

/-- `BunnyDbClient::new_raw_auth`. -/
def new_raw_auth (pipeline_url : String) (authorization : List Char) :
    ClientAuth :=
  { pipeline_url := pipeline_url, token := authorization }

/-- `BunnyDbClient::new_bearer`. -/
def new_bearer (pipeline_url : String) (token : List Char) : ClientAuth :=
  new_raw_auth pipeline_url (normalize_bearer_authorization token)

/-- `db_id_to_pipeline_url`. -/
def db_id_to_pipeline_url (db_id : List Char) : String :=
  "https://" ++ String.mk (rustTrim db_id) ++ ".lite.bunnydb.net/v2/pipeline"

/-- `BunnyDbClient::from_db_id`. -/
def from_db_id (db_id token : List Char) : ClientAuth :=
  new_bearer (db_id_to_pipeline_url db_id) token

/-! ## Shared concrete instances for witnesses -/

/-- A trivial float model on `Unit` whose single value is finite; its
formatting round-trips by definition. -/
def unitOps : FloatOps Unit :=
  { isFinite := fun _ => true
    toStr := fun _ => ['0']
    parse := fun _ => some () }

/-- A float model on `Unit` whose single value is NOT finite (stands for
`f64::NAN`). -/
def nanOps : FloatOps Unit :=
  { isFinite := fun _ => false
    toStr := fun _ => ['N', 'a', 'N']
    parse := fun _ => some () }

/-! ## Helper lemmas -/

lemma collectExcept_error_mem {α β : Type} {f : α → Except BunnyDbError β}
    {l : List α} {e : BunnyDbError} (h : collectExcept f l = .error e) :
    ∃ a ∈ l, f a = .error e := by
  induction l with
  | nil => simp [collectExcept] at h
  | cons b rest ih =>
    rw [collectExcept] at h
    rcases hfb : f b with e' | v
    · rw [hfb] at h
      cases h
      exact ⟨b, List.mem_cons_self b rest, hfb⟩
    · rw [hfb] at h
      rcases hcol : collectExcept f rest with e2 | vs
      · rw [hcol] at h
        cases h
        obtain ⟨a, ha, hfa⟩ := ih hcol
        exact ⟨a, List.mem_cons_of_mem b ha, hfa⟩
      · rw [hcol] at h
        cases h

lemma collectExcept_err_of_mem {α β : Type} {f : α → Except BunnyDbError β}
    {l : List α} {a : α} {e : BunnyDbError} (ha : a ∈ l)
    (he : f a = .error e) : ∃ e2, collectExcept f l = .error e2 := by
  induction l with
  | nil => simp at ha
  | cons b rest ih =>
    rcases hfb : f b with e' | v
    · exact ⟨e', by rw [collectExcept, hfb]⟩
    · rcases List.mem_cons.mp ha with rfl | hmem
      · rw [hfb] at he; cases he
      · obtain ⟨e2, hcol⟩ := ih hmem
        exact ⟨e2, by rw [collectExcept, hfb, hcol]⟩

lemma encode_value_error_decode {F : Type} {fo : FloatOps F} {v : Value F}
    {e : BunnyDbError} (h : encode_value fo v = .error e) :
    ∃ m, e = .Decode m := by
  cases v with
  | Float x =>
    by_cases hx : fo.isFinite x = false
    · rw [encode_value, if_pos hx] at h
      cases h
      exact ⟨_, rfl⟩
    · rw [encode_value, if_neg hx] at h
      cases h
  | Null => cases h
  | Integer i => cases h
  | Text s => cases h
  | BlobBase64 s => cases h

lemma encode_float_nonfinite {F : Type} {fo : FloatOps F} {x : F}
    (hx : fo.isFinite x = false) :
    encode_value fo (.Float x) = .error (.Decode ("non-finite float value '" ++
      String.mk (fo.toStr x) ++ "' is unsupported")) := by
  rw [encode_value, if_pos hx]

lemma encode_named_pair_error_decode {F : Type} {fo : FloatOps F}
    {p : List Char × Value F} {e : BunnyDbError}
    (h : encode_named_pair fo p = .error e) : ∃ m, e = .Decode m := by
  rw [encode_named_pair] at h
  rcases hn : normalize_named_parameter_name p.1 with e' | name
  · rw [hn] at h
    cases h
    rw [normalize_named_parameter_name] at hn
    split at hn
    · cases hn; exact ⟨_, rfl⟩
    · cases hn
  · rw [hn] at h
    rcases hv : encode_value fo p.2 with e2 | w
    · rw [hv] at h
      cases h
      exact encode_value_error_decode hv
    · rw [hv] at h
      cases h

lemma build_error_decode {F : Type} {fo : FloatOps F} {sql : String}
    {params : Params F} {want_rows : Bool} {e : BunnyDbError}
    (h : build_execute_statement fo sql params want_rows = .error e) :
    ∃ m, e = .Decode m := by
  cases params with
  | Positional values =>
    rw [build_execute_statement] at h
    rcases hcol : collectExcept (encode_value fo) values with e2 | args
    · rw [hcol] at h
      cases h
      obtain ⟨a, _, hfa⟩ := collectExcept_error_mem hcol
      exact encode_value_error_decode hfa
    · rw [hcol] at h
      cases h
  | Named values =>
    rw [build_execute_statement] at h
    rcases hcol : collectExcept (encode_named_pair fo) values with e2 | args
    · rw [hcol] at h
      cases h
      obtain ⟨a, _, hfa⟩ := collectExcept_error_mem hcol
      exact encode_named_pair_error_decode hfa
    · rw [hcol] at h
      cases h

/-- The parameter container holds a float the model deems non-finite. -/
def hasNonFiniteFloat {F : Type} (fo : FloatOps F) : Params F → Prop
  | .Positional values => ∃ x, Value.Float x ∈ values ∧ fo.isFinite x = false
  | .Named values => ∃ n x, (n, Value.Float x) ∈ values ∧ fo.isFinite x = false

lemma build_fails_of_nonfinite {F : Type} {fo : FloatOps F} {sql : String}
    {params : Params F} {want_rows : Bool}
    (h : hasNonFiniteFloat fo params) :
    ∃ m, build_execute_statement fo sql params want_rows =
      .error (.Decode m) := by
  have herr : ∃ e, build_execute_statement fo sql params want_rows = .error e := by
    cases params with
    | Positional values =>
      obtain ⟨x, hmem, hx⟩ := h
      obtain ⟨e2, hcol⟩ := collectExcept_err_of_mem hmem (encode_float_nonfinite hx)
      exact ⟨e2, by rw [build_execute_statement, hcol]⟩
    | Named values =>
      obtain ⟨n, x, hmem, hx⟩ := h
      have hpair : ∃ e3, encode_named_pair fo (n, Value.Float x) = .error e3 := by
        rw [encode_named_pair]
        rcases hn : normalize_named_parameter_name n with e' | name
        · exact ⟨e', rfl⟩
        · refine ⟨.Decode ("non-finite float value '" ++ String.mk (fo.toStr x) ++
            "' is unsupported"), ?_⟩
          have hs2 : encode_value fo (n, Value.Float x).2 = .error (.Decode
              ("non-finite float value '" ++ String.mk (fo.toStr x) ++
                "' is unsupported")) := encode_float_nonfinite hx
          rw [hs2]
      obtain ⟨e3, hpair⟩ := hpair
      obtain ⟨e2, hcol⟩ := collectExcept_err_of_mem hmem hpair
      exact ⟨e2, by rw [build_execute_statement, hcol]⟩
  obtain ⟨e, he⟩ := herr
  obtain ⟨m, rfl⟩ := build_error_decode he
  exact ⟨m, he⟩

lemma ensure_close_ok {F : Type} {r : PipelineResult F} {i : Nat}
    {env : ResponseEnvelope F} (hk : r.kind = "ok")
    (hr : r.response = some env) (he : env.kind = "close") :
    ensure_close_success r i = .ok () := by
  rw [ensure_close_success, if_pos hk, hr]
  simp [he]

/-- A first attempt that returns a 2xx status short-circuits the retry
loop: one post, no delays, and the JSON parse decides the result. -/
lemma retry_loop_first_success {F : Type} (oracle : Nat → AttemptOutcome)
    (parseResp : String → Option (PipelineResponse F))
    (payload : PipelineRequest) (base attempt remaining s : Nat) (b : String)
    (ho : oracle attempt = .httpResponse s (.ok b))
    (hs : is_success s = true) :
    retry_loop oracle parseResp payload base attempt remaining =
      { result := match parseResp b with
          | some response => .ok response
          | none =>
            .error (.Decode ("invalid pipeline response JSON; body: " ++ b))
        posts := [payload]
        delays := [] } := by
  cases remaining with
  | zero =>
    rw [retry_loop, ho, attempt_terminal]
    simp [hs]
  | succ r =>
    rw [retry_loop, ho]
    simp [hs, attempt_terminal]

/-- The claim's notion of a retryable attempt outcome: an HTTP status in
{429, 500, 502, 503, 504}, or a transport failure classified as
timeout/connection/request/body error. -/
def retryable_outcome : AttemptOutcome → Bool
  | .sendFailure e => should_retry_transport e
  | .httpResponse _ (.error e) => should_retry_transport e
  | .httpResponse status (.ok _) => should_retry_status status

/-- The loop's actual retry condition at one attempt (body-read failures
are returned before the retry check, so they never retry). -/
def loop_retries : AttemptOutcome → Bool
  | .sendFailure e => should_retry_transport e
  | .httpResponse _ (.error _) => false
  | .httpResponse status (.ok _) =>
    is_success status = false && should_retry_status status

lemma loop_retries_retryable {o : AttemptOutcome}
    (h : loop_retries o = true) : retryable_outcome o = true := by
  cases o with
  | sendFailure e => exact h
  | httpResponse s bres =>
    cases bres with
    | error e => simp [loop_retries] at h
    | ok b =>
      rw [loop_retries] at h
      have h2 := h
      simp only [Bool.and_eq_true, decide_eq_true_eq] at h2
      exact h2.2

/-- Everything C8 and C9 need to know about one run of the retry loop
starting at `attempt` with `remaining` retries still allowed. -/
def RetrySpec {F : Type} (oracle : Nat → AttemptOutcome)
    (parseResp : String → Option (PipelineResponse F))
    (payload : PipelineRequest) (base remaining attempt : Nat)
    (so : SendOutcome F) : Prop :=
  1 ≤ so.posts.length ∧
  so.posts.length ≤ remaining + 1 ∧
  (∀ p ∈ so.posts, p = payload) ∧
  (∀ k, k + 1 < so.posts.length →
    retryable_outcome (oracle (attempt + k)) = true ∧ k < remaining) ∧
  so.result = attempt_terminal parseResp
    (oracle (attempt + (so.posts.length - 1))) ∧
  so.delays.length = so.posts.length - 1 ∧
  (∀ k, k < so.delays.length →
    so.delays.getD k 0 = wait_delay base (attempt + k))

lemma retry_loop_zero {F : Type} (oracle : Nat → AttemptOutcome)
    (parseResp : String → Option (PipelineResponse F))
    (payload : PipelineRequest) (base attempt : Nat) :
    retry_loop oracle parseResp payload base attempt 0 =
      { result := attempt_terminal parseResp (oracle attempt)
        posts := [payload]
        delays := [] } := rfl

lemma retry_loop_succ_retry {F : Type} (oracle : Nat → AttemptOutcome)
    (parseResp : String → Option (PipelineResponse F))
    (payload : PipelineRequest) (base attempt r : Nat)
    (h : loop_retries (oracle attempt) = true) :
    retry_loop oracle parseResp payload base attempt (r + 1) =
      { result := (retry_loop oracle parseResp payload base (attempt + 1) r).result
        posts :=
          payload :: (retry_loop oracle parseResp payload base (attempt + 1) r).posts
        delays := wait_delay base attempt ::
          (retry_loop oracle parseResp payload base (attempt + 1) r).delays } := by
  rw [retry_loop]
  cases ho : oracle attempt with
  | sendFailure e =>
    rw [ho] at h
    rw [loop_retries] at h
    simp [h]
  | httpResponse s bres =>
    cases bres with
    | error e => rw [ho] at h; simp [loop_retries] at h
    | ok b =>
      rw [ho] at h
      rw [loop_retries] at h
      have h2 := h
      simp only [Bool.and_eq_true, decide_eq_true_eq] at h2
      simp [h2.1, h2.2]

lemma retry_loop_succ_stop {F : Type} (oracle : Nat → AttemptOutcome)
    (parseResp : String → Option (PipelineResponse F))
    (payload : PipelineRequest) (base attempt r : Nat)
    (h : loop_retries (oracle attempt) = false) :
    retry_loop oracle parseResp payload base attempt (r + 1) =
      { result := attempt_terminal parseResp (oracle attempt)
        posts := [payload]
        delays := [] } := by
  rw [retry_loop]
  cases ho : oracle attempt with
  | sendFailure e =>
    rw [ho] at h
    rw [loop_retries] at h
    simp [h]
  | httpResponse s bres =>
    cases bres with
    | error e => rfl
    | ok b =>
      rw [ho] at h
      rw [loop_retries] at h
      cases hx : is_success s with
      | true => simp [hx]
      | false =>
        have h2 : should_retry_status s = false := by
          rw [hx] at h
          simpa using h
        simp [hx, h2]

lemma retry_terminal_spec {F : Type} (oracle : Nat → AttemptOutcome)
    (parseResp : String → Option (PipelineResponse F))
    (payload : PipelineRequest) (base remaining attempt : Nat) :
    RetrySpec oracle parseResp payload base remaining attempt
      { result := attempt_terminal parseResp (oracle attempt)
        posts := [payload]
        delays := [] } := by
  refine ⟨by simp, by simp, by simp, ?_, by simp, by simp, ?_⟩
  · intro k hk
    simp at hk
  · intro k hk
    simp at hk

lemma retry_cons_spec {F : Type} (oracle : Nat → AttemptOutcome)
    (parseResp : String → Option (PipelineResponse F))
    (payload : PipelineRequest) (base r attempt : Nat) (rest : SendOutcome F)
    (hrest : RetrySpec oracle parseResp payload base r (attempt + 1) rest)
    (hretry : retryable_outcome (oracle attempt) = true) :
    RetrySpec oracle parseResp payload base (r + 1) attempt
      { result := rest.result
        posts := payload :: rest.posts
        delays := wait_delay base attempt :: rest.delays } := by
  obtain ⟨h1, h2, h3, h4, h5, h6, h7⟩ := hrest
  refine ⟨?_, ?_, ?_, ?_, ?_, ?_, ?_⟩
  · simp
  · simp only [List.length_cons]
    omega
  · intro p hp
    rcases List.mem_cons.mp hp with rfl | hmem
    · rfl
    · exact h3 p hmem
  · intro k hk
    cases k with
    | zero =>
      constructor
      · simpa using hretry
      · omega
    | succ j =>
      simp only [List.length_cons] at hk
      have hj := h4 j (by omega)
      constructor
      · have harith : attempt + (j + 1) = attempt + 1 + j := by omega
        rw [harith]
        exact hj.1
      · omega
  · simp only [List.length_cons]
    rw [h5]
    have harith : attempt + 1 + (rest.posts.length - 1) =
        attempt + (rest.posts.length + 1 - 1) := by omega
    rw [harith]
  · simp only [List.length_cons]
    omega
  · intro k hk
    cases k with
    | zero => simp
    | succ j =>
      simp only [List.length_cons] at hk
      simp only [List.getD_cons_succ]
      rw [h7 j (by omega)]
      have harith : attempt + 1 + j = attempt + (j + 1) := by omega
      rw [harith]

/-- Full characterization of the retry loop. -/
lemma retry_loop_spec {F : Type} (oracle : Nat → AttemptOutcome)
    (parseResp : String → Option (PipelineResponse F))
    (payload : PipelineRequest) (base : Nat) :
    ∀ remaining attempt,
    RetrySpec oracle parseResp payload base remaining attempt
      (retry_loop oracle parseResp payload base attempt remaining) := by
  intro remaining
  induction remaining with
  | zero =>
    intro attempt
    rw [retry_loop_zero]
    exact retry_terminal_spec oracle parseResp payload base 0 attempt
  | succ r ih =>
    intro attempt
    by_cases hl : loop_retries (oracle attempt) = true
    · rw [retry_loop_succ_retry oracle parseResp payload base attempt r hl]
      exact retry_cons_spec oracle parseResp payload base r attempt _
        (ih (attempt + 1)) (loop_retries_retryable hl)
    · rw [retry_loop_succ_stop oracle parseResp payload base attempt r
        (Bool.not_eq_true _ ▸ hl)]
      exact retry_terminal_spec oracle parseResp payload base (r + 1) attempt

/-- Pointwise-successful statement decodes make `decode_outcomes` succeed
and consume exactly one result per statement. -/
lemma decode_outcomes_append {F : Type} (fo : FloatOps F) :
    ∀ (wants : List Bool) (body rest : List (PipelineResult F))
      (outs : List (StatementOutcome F)) (i0 : Nat),
    body.length = wants.length → outs.length = wants.length →
    (∀ k, k < wants.length →
      decode_statement_outcome fo (body.getD k ⟨"", none, none⟩) (i0 + k)
        (wants.getD k false) = .ok (outs.getD k (.SqlError 0 "" none))) →
    decode_outcomes fo wants (body ++ rest) i0 = .ok (outs, rest) := by
  intro wants
  induction wants with
  | nil =>
    intro body rest outs i0 hb ho _
    have hbody : body = [] := List.length_eq_zero.mp (by simpa using hb)
    have houts : outs = [] := List.length_eq_zero.mp (by simpa using ho)
    subst hbody
    subst houts
    rfl
  | cons w wants ih =>
    intro body rest outs i0 hb ho hdec
    rcases body with _ | ⟨r, body⟩
    · simp at hb
    rcases outs with _ | ⟨o, outs⟩
    · simp at ho
    have h0 := hdec 0 (by simp)
    simp only [List.getD_cons_zero, Nat.add_zero] at h0
    rw [List.cons_append, decode_outcomes, h0]
    have hrec := ih body rest outs (i0 + 1) (by simpa using hb) (by simpa using ho)
      (fun k hk => by
        have := hdec (k + 1) (by simpa using Nat.succ_lt_succ hk)
        simpa [Nat.add_assoc, Nat.add_comm 1 k] using this)
    rw [hrec]

lemma send_success {F : Type} (opts : ClientOptions)
    (oracle : Nat → AttemptOutcome)
    (parseResp : String → Option (PipelineResponse F))
    (payload : PipelineRequest) (b : String) (resp : PipelineResponse F)
    (ho : oracle 0 = .httpResponse 200 (.ok b))
    (hp : parseResp b = some resp) :
    send_pipeline_with_retry opts oracle parseResp payload =
      { result := .ok resp, posts := [payload], delays := [] } := by
  rw [send_pipeline_with_retry,
    retry_loop_first_success oracle parseResp payload opts.retry_backoff_ms 0
      opts.max_retries 200 b ho (by decide), hp]

lemma head?_dropWhile_sigil (l : List Char) :
    ∀ c, (l.dropWhile isNameSigil).head? = some c → isNameSigil c = false := by
  induction l with
  | nil => intro c hc; simp at hc
  | cons a l ih =>
    intro c hc
    rw [List.dropWhile_cons] at hc
    by_cases ha : isNameSigil a = true
    · rw [if_pos ha] at hc
      exact ih c hc
    · rw [if_neg ha] at hc
      simp only [List.head?_cons, Option.some.injEq] at hc
      subst hc
      exact Bool.not_eq_true _ ▸ ha

/-! ## Claims -/

/-- The claim's (C2's) reading of the name encoder: strip exactly ONE
leading prefix character from `{:, @, $}` when present, zero otherwise;
fail when the remainder is empty.  Stated only to be compared against
`normalize_named_parameter_name`, which the source builds on
`trim_start_matches` (strip ALL leading matches). -/
def normalize_spec_strip_one (name : List Char) :
    Except BunnyDbError (List Char) :=
  let stripped :=
    match name with
    | c :: rest => if isNameSigil c then rest else name
    | [] => name
  if stripped.isEmpty then
    .error (.Decode "named parameter name cannot be empty")
  else .ok stripped

/-- C2 counterexample: on `"::a"` the code strips BOTH colons (yielding
`"a"`), while the claim's strip-exactly-one reading yields `":a"`; and on
`"::"` the code errors while the claim's reading yields `":"`. -/
theorem C2_counterexample :
    normalize_named_parameter_name [':', ':', 'a'] = .ok ['a']
    ∧ normalize_spec_strip_one [':', ':', 'a'] = .ok [':', 'a']
    ∧ normalize_named_parameter_name [':', ':', 'a'] ≠
        normalize_spec_strip_one [':', ':', 'a']
    ∧ normalize_named_parameter_name [':', ':'] =
        .error (.Decode "named parameter name cannot be empty")
    ∧ normalize_spec_strip_one [':', ':'] = .ok [':'] := by
  refine ⟨rfl, rfl, ?_, rfl, rfl⟩
  decide

/-- C2 (amended): the encoder strips ALL leading characters from
`{:, @, $}` (the maximal sigil prefix); when the name consists only of
such characters (or is empty) the statement build fails with a decode
error, and otherwise the transmitted name is the remainder, which never
starts with a sigil. -/
theorem C2_sigil_stripping {F : Type} (fo : FloatOps F) (sql : String)
    (w : Bool) (n : List Char) :
    (n.all isNameSigil = true →
      normalize_named_parameter_name n =
        .error (.Decode "named parameter name cannot be empty")
      ∧ isDecodeErr
          (build_execute_statement fo sql (.Named [(n, .Null)]) w) = true)
    ∧ (¬ n.all isNameSigil = true →
      normalize_named_parameter_name n = .ok (n.dropWhile isNameSigil)
      ∧ n.takeWhile isNameSigil ++ n.dropWhile isNameSigil = n
      ∧ (∀ c ∈ n.takeWhile isNameSigil, isNameSigil c = true)
      ∧ (∀ c, (n.dropWhile isNameSigil).head? = some c →
          isNameSigil c = false)
      ∧ build_execute_statement fo sql (.Named [(n, .Null)]) w =
          .ok { sql := sql
                args := none
                named_args := some [⟨n.dropWhile isNameSigil, .Null⟩]
                want_rows := w }) := by
  constructor
  · intro hall
    have hnil : n.dropWhile isNameSigil = [] :=
      List.dropWhile_eq_nil_iff.mpr (by simpa [List.all_eq_true] using hall)
    have hnorm : normalize_named_parameter_name n =
        .error (.Decode "named parameter name cannot be empty") := by
      rw [normalize_named_parameter_name]
      simp [hnil]
    refine ⟨hnorm, ?_⟩
    have hpair : encode_named_pair fo ((n, (.Null : Value F))) =
        .error (.Decode "named parameter name cannot be empty") := by
      rw [encode_named_pair, hnorm]
    rw [build_execute_statement, collectExcept, hpair]
    rfl
  · intro hall
    have hne : n.dropWhile isNameSigil ≠ [] := by
      intro hnil
      exact hall (by
        simpa [List.all_eq_true] using List.dropWhile_eq_nil_iff.mp hnil)
    have hnorm : normalize_named_parameter_name n =
        .ok (n.dropWhile isNameSigil) := by
      rw [normalize_named_parameter_name]
      simp [List.isEmpty_iff, hne]
    refine ⟨hnorm, List.takeWhile_append_dropWhile isNameSigil n, ?_,
      head?_dropWhile_sigil n, ?_⟩
    · intro c hc
      exact List.mem_takeWhile_imp hc
    · have hpair : encode_named_pair fo ((n, (.Null : Value F))) =
          .ok ⟨n.dropWhile isNameSigil, .Null⟩ := by
        rw [encode_named_pair, hnorm]
        rfl
      rw [build_execute_statement, collectExcept, hpair, collectExcept]
      simp [List.isEmpty_iff]

/-- C2 witness: the name `":@x"` loses its whole sigil prefix and builds
into the wire name `"x"`. -/
theorem C2_sigil_stripping_witness :
    normalize_named_parameter_name [':', '@', 'x'] = .ok ['x']
    ∧ build_execute_statement unitOps "S" (.Named [([':', '@', 'x'], .Null)])
        true =
      .ok { sql := "S"
            args := none
            named_args := some [⟨['x'], .Null⟩]
            want_rows := true } :=
  ⟨((C2_sigil_stripping unitOps "S" true [':', '@', 'x']).2 (by decide)).1,
   ((C2_sigil_stripping unitOps "S" true [':', '@', 'x']).2
      (by decide)).2.2.2.2⟩

/-- A logical value the Rust types can actually hold: `Integer` payloads
are `i64` and `Float` payloads are finite. -/
def ValidValue {F : Type} (fo : FloatOps F) : Value F → Prop
  | .Integer i => i64Range i
  | .Float x => fo.isFinite x = true
  | .Null => True
  | .Text _ => True
  | .BlobBase64 _ => True

/-- C3: decoding the encoding of any valid logical value returns exactly
that value; integer decimal strings round-trip for every `i64`, and float
decimal strings round-trip given Rust's documented `Display`/`FromStr`
round-trip guarantee (`hfmt`). -/
theorem C3_value_roundtrip {F : Type} (fo : FloatOps F)
    (hfmt : ∀ x, fo.isFinite x = true → fo.parse (fo.toStr x) = some x)
    (v : Value F) (hv : ValidValue fo v) :
    (encode_value fo v).bind (decode_value fo) = .ok v := by
  cases v with
  | Null => rfl
  | Text s => rfl
  | BlobBase64 s => rfl
  | Integer i =>
    have hi : i64Range i := hv
    simp [encode_value, Except.bind, decode_value, parseI64_intToDecimal hi]
  | Float x =>
    have hx : fo.isFinite x = true := hv
    simp [encode_value, Except.bind, decode_value, hx, hfmt x hx]

/-- C3 witness at the integer 42 over the trivial float model. -/
theorem C3_value_roundtrip_witness :
    i64Range 42
    ∧ (encode_value unitOps (Value.Integer 42)).bind (decode_value unitOps) =
        .ok (Value.Integer 42) :=
  ⟨by decide,
   C3_value_roundtrip unitOps (fun x hx => rfl) (Value.Integer 42)
     (by decide : i64Range 42)⟩

/-- C9 counterexample: with `retry_backoff_ms = 2^60` and attempt 16 the
computed delay saturates at `u64::MAX = 2^64 - 1`, not the claimed
`2^60 * 2^min(16,16) = 2^76`. -/
theorem C9_counterexample :
    wait_delay (2 ^ 60) 16 = 2 ^ 64 - 1
    ∧ wait_delay (2 ^ 60) 16 ≠ 2 ^ 60 * 2 ^ min 16 16 := by
  constructor <;> decide

/-- C9 (amended): the delay waited before retry number `k` (counting from
0) is `backoff_base_ms * 2^min(k,16)` saturated at `u64::MAX`
(`min (..) (2^64 - 1)`); the exponent cap keeps the shift multiplier
within `u64`. -/
theorem C9_backoff_saturating {F : Type} (opts : ClientOptions)
    (oracle : Nat → AttemptOutcome)
    (parseResp : String → Option (PipelineResponse F))
    (payload : PipelineRequest) (k : Nat)
    (hk : k < (send_pipeline_with_retry opts oracle parseResp
      payload).delays.length) :
    (send_pipeline_with_retry opts oracle parseResp payload).delays.getD k 0 =
      min (opts.retry_backoff_ms * 2 ^ min k 16) (2 ^ 64 - 1)
    ∧ 1 <<< min k 16 < 2 ^ 64 := by
  obtain ⟨_, _, _, _, _, _, h7⟩ :=
    retry_loop_spec oracle parseResp payload opts.retry_backoff_ms
      opts.max_retries 0
  constructor
  · have h := h7 k hk
    rw [send_pipeline_with_retry]
    rw [h]
    simp [wait_delay, Nat.shiftLeft_eq]
  · rw [Nat.shiftLeft_eq, one_mul]
    calc (2 : Nat) ^ min k 16 ≤ 2 ^ 16 :=
        Nat.pow_le_pow_right (by norm_num) (min_le_right k 16)
    _ < 2 ^ 64 := by norm_num

/-- C9 witness: first retry with the default 250 ms base waits
`min (250 * 2^0) (2^64 - 1)`. -/
theorem C9_backoff_saturating_witness :
    (send_pipeline_with_retry ⟨1000, 1, 250⟩
        (fun _ => .httpResponse 500 (.ok "x"))
        (fun _ => (none : Option (PipelineResponse Unit)))
        ⟨[.Close]⟩).delays.getD 0 0 =
      min (250 * 2 ^ min 0 16) (2 ^ 64 - 1)
    ∧ 1 <<< min 0 16 < 2 ^ 64 :=
  C9_backoff_saturating ⟨1000, 1, 250⟩ (fun _ => .httpResponse 500 (.ok "x"))
    (fun _ => (none : Option (PipelineResponse Unit))) ⟨[.Close]⟩ 0 (by decide)

/-- C10: `new_bearer` (and hence `from_db_id`) trims the token, keeps it
unchanged when its first seven characters spell `"bearer "`
case-insensitively, and prepends `"Bearer "` otherwise — in particular
whenever the trimmed token is shorter than seven characters. -/
theorem C10_bearer_normalization (url : String) (t db_id : List Char) :
    ((7 ≤ (rustTrim t).length ∧
        eqIgnoreAsciiCase ((rustTrim t).take 7) bearerLower = true) →
      (new_bearer url t).token = rustTrim t)
    ∧ (¬ (7 ≤ (rustTrim t).length ∧
        eqIgnoreAsciiCase ((rustTrim t).take 7) bearerLower = true) →
      (new_bearer url t).token = bearerScheme ++ rustTrim t)
    ∧ ((rustTrim t).length < 7 →
      (new_bearer url t).token = bearerScheme ++ rustTrim t)
    ∧ (from_db_id db_id t).token =
        (new_bearer (db_id_to_pipeline_url db_id) t).token := by
  refine ⟨?_, ?_, ?_, rfl⟩
  · rintro ⟨h7, heq⟩
    show normalize_bearer_authorization t = rustTrim t
    rw [normalize_bearer_authorization]
    simp only [firstSeven, if_pos h7, heq, if_true]
  · intro hnot
    show normalize_bearer_authorization t = bearerScheme ++ rustTrim t
    rw [normalize_bearer_authorization]
    by_cases h7 : 7 ≤ (rustTrim t).length
    · have heq : eqIgnoreAsciiCase ((rustTrim t).take 7) bearerLower = false := by
        rcases hx : eqIgnoreAsciiCase ((rustTrim t).take 7) bearerLower with _ | _
        · rfl
        · exact absurd ⟨h7, hx⟩ hnot
      simp only [firstSeven, if_pos h7, heq, Bool.false_eq_true, if_false]
    · simp only [firstSeven, if_neg h7]
  · intro h7
    show normalize_bearer_authorization t = bearerScheme ++ rustTrim t
    rw [normalize_bearer_authorization]
    simp only [firstSeven, if_neg (by omega : ¬ 7 ≤ (rustTrim t).length)]

/-- C10 witness: a short token gets the `"Bearer "` prefix after
trimming. -/
theorem C10_bearer_normalization_witness :
    (new_bearer "u" ("  tok  ".toList)).token =
      bearerScheme ++ rustTrim ("  tok  ".toList) :=
  (C10_bearer_normalization "u" ("  tok  ".toList) []).2.2.1 (by decide)

/-- C4: a non-finite float parameter fails the call with a decode-class
error during statement building, before any payload is posted, for
`query`, `execute` and `batch` alike. -/
theorem C4_nonfinite_float_fails_before_send {F : Type} (fo : FloatOps F)
    (opts : ClientOptions) (oracle : Nat → AttemptOutcome)
    (parseResp : String → Option (PipelineResponse F)) (sql : String)
    (params : Params F) (stmts : List (Statement F))
    (hbad : hasNonFiniteFloat fo params)
    (hstmts : ∃ st ∈ stmts, hasNonFiniteFloat fo st.params) :
    (∀ x, fo.isFinite x = false →
      encode_value fo (.Float x) = .error (.Decode ("non-finite float value '" ++
        String.mk (fo.toStr x) ++ "' is unsupported")))
    ∧ isDecodeErr (query fo opts oracle parseResp sql params).1 = true
    ∧ (query fo opts oracle parseResp sql params).2 = []
    ∧ isDecodeErr (execute fo opts oracle parseResp sql params).1 = true
    ∧ (execute fo opts oracle parseResp sql params).2 = []
    ∧ isDecodeErr (batch fo opts oracle parseResp stmts).1 = true
    ∧ (batch fo opts oracle parseResp stmts).2 = [] := by
  obtain ⟨m1, hb1⟩ := @build_fails_of_nonfinite F fo sql params true hbad
  obtain ⟨m2, hb2⟩ := @build_fails_of_nonfinite F fo sql params false hbad
  have hq : query fo opts oracle parseResp sql params =
      (.error (.Decode m1), []) := by
    rw [query, run_single, hb1]
  have hx : execute fo opts oracle parseResp sql params =
      (.error (.Decode m2), []) := by
    rw [execute, run_single, hb2]
  have hbb : ∃ m, batch fo opts oracle parseResp stmts =
      (.error (.Decode m), []) := by
    obtain ⟨st, hmem, hstbad⟩ := hstmts
    obtain ⟨m3, hb3⟩ :=
      @build_fails_of_nonfinite F fo st.sql st.params st.want_rows hstbad
    obtain ⟨e2, hcol⟩ := @collectExcept_err_of_mem (Statement F) ExecuteStatement
      (fun st => build_execute_statement fo st.sql st.params st.want_rows)
      stmts st _ hmem hb3
    obtain ⟨a, _, hfa⟩ := collectExcept_error_mem hcol
    obtain ⟨m4, rfl⟩ := build_error_decode hfa
    exact ⟨m4, by rw [batch, hcol]⟩
  obtain ⟨m4, hbb⟩ := hbb
  refine ⟨fun x hx2 => encode_float_nonfinite hx2, ?_, ?_, ?_, ?_, ?_, ?_⟩
  · rw [hq]; rfl
  · rw [hq]
  · rw [hx]; rfl
  · rw [hx]
  · rw [hbb]; rfl
  · rw [hbb]

/-- C4 witness: `query` and `batch` on a NaN-like float parameter fail
with a decode error and post nothing. -/
theorem C4_nonfinite_float_fails_before_send_witness :
    isDecodeErr (query nanOps ⟨10000, 0, 250⟩
      (fun _ => .sendFailure ⟨false, false, false, false⟩)
      (fun _ => (none : Option (PipelineResponse Unit))) "SELECT ?"
      (.Positional [Value.Float ()])).1 = true
    ∧ (query nanOps ⟨10000, 0, 250⟩
        (fun _ => .sendFailure ⟨false, false, false, false⟩)
        (fun _ => (none : Option (PipelineResponse Unit))) "SELECT ?"
        (.Positional [Value.Float ()])).2 = []
    ∧ isDecodeErr (batch nanOps ⟨10000, 0, 250⟩
        (fun _ => .sendFailure ⟨false, false, false, false⟩)
        (fun _ => (none : Option (PipelineResponse Unit)))
        [⟨"SELECT ?", .Positional [Value.Float ()], true⟩]).1 = true :=
  have hthm := C4_nonfinite_float_fails_before_send nanOps ⟨10000, 0, 250⟩
    (fun _ => .sendFailure ⟨false, false, false, false⟩)
    (fun _ => (none : Option (PipelineResponse Unit))) "SELECT ?"
    (.Positional [Value.Float ()])
    [⟨"SELECT ?", .Positional [Value.Float ()], true⟩]
    ⟨(), by decide, rfl⟩
    ⟨⟨"SELECT ?", .Positional [Value.Float ()], true⟩,
      List.mem_singleton.mpr rfl, ⟨(), by decide, rfl⟩⟩
  ⟨hthm.2.1, hthm.2.2.1, hthm.2.2.2.2.2.1⟩

/-- C5: a results array whose length differs from requests-sent
(`N + 1` for batch, 2 for single calls) is a decode error. -/
theorem C5_length_mismatch {F : Type} (fo : FloatOps F)
    (opts : ClientOptions) (oracle : Nat → AttemptOutcome)
    (parseResp : String → Option (PipelineResponse F)) (sql body : String)
    (wants : List Bool) (respB respS : PipelineResponse F)
    (hb : respB.results.length ≠ wants.length + 1)
    (hs : respS.results.length ≠ 2)
    (ho : oracle 0 = .httpResponse 200 (.ok body))
    (hp : parseResp body = some respS) :
    isDecodeErr (batch_decode fo wants respB) = true
    ∧ isDecodeErr (run_single_decode respS) = true
    ∧ isDecodeErr (query fo opts oracle parseResp sql (.Positional [])).1 =
        true := by
  have hdec : run_single_decode respS =
      .error (.Decode ("result count mismatch: expected 2, got " ++
        toString respS.results.length)) := by
    rw [run_single_decode, if_pos hs]
  refine ⟨?_, ?_, ?_⟩
  · rw [batch_decode, if_pos hb]; rfl
  · rw [hdec]; rfl
  · have hbuild : build_execute_statement fo sql (Params.Positional []) true =
        .ok { sql := sql, args := none, named_args := none,
              want_rows := true } := rfl
    have hsend := send_success opts oracle parseResp
      ⟨[.Execute ⟨sql, none, none, true⟩, .Close]⟩ body respS ho hp
    have hrun : run_single fo opts oracle parseResp sql (.Positional [])
        true = (run_single_decode respS,
          [⟨[.Execute ⟨sql, none, none, true⟩, .Close]⟩]) := by
      rw [run_single, hbuild]
      simp only [hsend]
    rw [query, hrun, hdec]
    rfl

/-- C5 witness: an empty results array fails both shapes. -/
theorem C5_length_mismatch_witness :
    isDecodeErr (batch_decode unitOps [true]
      (⟨none, none, []⟩ : PipelineResponse Unit)) = true
    ∧ isDecodeErr (run_single_decode
        (⟨none, none, []⟩ : PipelineResponse Unit)) = true
    ∧ isDecodeErr (query unitOps ⟨10000, 0, 250⟩
        (fun _ => .httpResponse 200 (.ok "b"))
        (fun _ => some (⟨none, none, []⟩ : PipelineResponse Unit)) "SELECT 1"
        (.Positional [])).1 = true :=
  C5_length_mismatch unitOps ⟨10000, 0, 250⟩
    (fun _ => .httpResponse 200 (.ok "b"))
    (fun _ => some (⟨none, none, []⟩ : PipelineResponse Unit)) "SELECT 1" "b"
    [true] ⟨none, none, []⟩ ⟨none, none, []⟩ (by decide) (by decide) rfl rfl

/-- C6: a top-level "error" result at index 0 of a single call surfaces
as `Pipeline` with request index 0 and fails the whole call. -/
theorem C6_pipeline_error_fails_single {F : Type} (fo : FloatOps F)
    (opts : ClientOptions) (oracle : Nat → AttemptOutcome)
    (parseResp : String → Option (PipelineResponse F)) (sql body : String)
    (r0 r1 : PipelineResult F) (e : PipelineErrorW)
    (baton burl : Option String)
    (hk : r0.kind = "error") (he : r0.error = some e)
    (ho : oracle 0 = .httpResponse 200 (.ok body))
    (hp : parseResp body = some ⟨baton, burl, [r0, r1]⟩) :
    into_execute_result r0 0 = .error (.Pipeline 0 e.message e.code)
    ∧ run_single_decode (⟨baton, burl, [r0, r1]⟩ : PipelineResponse F) =
        .error (.Pipeline 0 e.message e.code)
    ∧ (query fo opts oracle parseResp sql (.Positional [])).1 =
        .error (.Pipeline 0 e.message e.code) := by
  have hinto : into_execute_result r0 0 =
      .error (.Pipeline 0 e.message e.code) := by
    rw [into_execute_result, if_neg (by simp [hk]), if_pos hk, he]
  have hdec : run_single_decode (⟨baton, burl, [r0, r1]⟩ :
      PipelineResponse F) = .error (.Pipeline 0 e.message e.code) := by
    rw [run_single_decode, if_neg (by simp)]
    simp only [hinto]
  refine ⟨hinto, hdec, ?_⟩
  have hbuild : build_execute_statement fo sql (Params.Positional []) true =
      .ok { sql := sql, args := none, named_args := none,
            want_rows := true } := rfl
  have hsend := send_success opts oracle parseResp
    ⟨[.Execute ⟨sql, none, none, true⟩, .Close]⟩ body ⟨baton, burl, [r0, r1]⟩
    ho hp
  have hrun : run_single fo opts oracle parseResp sql (.Positional [])
      true = (run_single_decode (⟨baton, burl, [r0, r1]⟩ :
        PipelineResponse F),
        [⟨[.Execute ⟨sql, none, none, true⟩, .Close]⟩]) := by
    rw [run_single, hbuild]
    simp only [hsend]
  rw [query, hrun, hdec]

/-- C6 witness: a concrete top-level error result fails a `query` call
with `Pipeline` at request index 0. -/
theorem C6_pipeline_error_fails_single_witness :
    (query unitOps ⟨10000, 0, 250⟩ (fun _ => .httpResponse 200 (.ok "b"))
      (fun _ => some (⟨none, none,
        [⟨"error", none, some ⟨"bad", none⟩⟩,
         ⟨"ok", some ⟨"close", none⟩, none⟩]⟩ : PipelineResponse Unit))
      "SELECT 1" (.Positional [])).1 =
      .error (.Pipeline 0 "bad" none) :=
  (C6_pipeline_error_fails_single unitOps ⟨10000, 0, 250⟩
    (fun _ => .httpResponse 200 (.ok "b"))
    (fun _ => some (⟨none, none,
      [⟨"error", none, some ⟨"bad", none⟩⟩,
       ⟨"ok", some ⟨"close", none⟩, none⟩]⟩ : PipelineResponse Unit))
    "SELECT 1" "b" ⟨"error", none, some ⟨"bad", none⟩⟩
    ⟨"ok", some ⟨"close", none⟩, none⟩ ⟨"bad", none⟩ none none rfl rfl rfl
    rfl).2.2

/-- C7: the trailing Close result is validated strictly — "ok"/"close"
passes, "error" fails the whole batch with `Pipeline` at the close index,
and every other shape is a decode error — even when earlier statement
results decoded to in-band outcomes (including `SqlError`s). -/
theorem C7_close_validation {F : Type} (fo : FloatOps F)
    (r : PipelineResult F) (i : Nat) (env : ResponseEnvelope F)
    (e : PipelineErrorW) (wants : List Bool)
    (body : List (PipelineResult F)) (closeR : PipelineResult F)
    (outs : List (StatementOutcome F)) (baton burl : Option String)
    (err : BunnyDbError)
    (hlen : body.length = wants.length) (houts : outs.length = wants.length)
    (hdec : ∀ k, k < wants.length →
      decode_statement_outcome fo (body.getD k ⟨"", none, none⟩) k
        (wants.getD k false) = .ok (outs.getD k (.SqlError 0 "" none)))
    (hclose : ensure_close_success closeR wants.length = .error err) :
    (r.kind = "ok" → r.response = some env → env.kind = "close" →
      ensure_close_success r i = .ok ())
    ∧ (r.kind = "error" → r.error = some e →
      ensure_close_success r i = .error (.Pipeline i e.message e.code))
    ∧ (r.kind = "error" → r.error = none →
      isDecodeErr (ensure_close_success r i) = true)
    ∧ (r.kind = "ok" → r.response = none →
      isDecodeErr (ensure_close_success r i) = true)
    ∧ (r.kind = "ok" → r.response = some env → env.kind ≠ "close" →
      isDecodeErr (ensure_close_success r i) = true)
    ∧ (r.kind ≠ "ok" → r.kind ≠ "error" →
      isDecodeErr (ensure_close_success r i) = true)
    ∧ batch_decode fo wants ⟨baton, burl, body ++ [closeR]⟩ = .error err := by
  refine ⟨?_, ?_, ?_, ?_, ?_, ?_, ?_⟩
  · intro hk hr hek
    exact ensure_close_ok hk hr hek
  · intro hk her
    rw [ensure_close_success, if_neg (by simp [hk]), if_pos hk, her]
  · intro hk her
    rw [ensure_close_success, if_neg (by simp [hk]), if_pos hk, her]
    rfl
  · intro hk hr
    rw [ensure_close_success, if_pos hk, hr]
    rfl
  · intro hk hr hek
    rw [ensure_close_success, if_pos hk, hr]
    simp only [if_pos (by simpa using hek)]
    rfl
  · intro hk1 hk2
    rw [ensure_close_success, if_neg hk1, if_neg hk2]
    rfl
  · have happend := decode_outcomes_append fo wants body [closeR] outs 0
      hlen houts (fun k hk => by simpa using hdec k hk)
    have hcl2 : ensure_close_success closeR outs.length = .error err := by
      rw [houts]; exact hclose
    rw [batch_decode, if_neg (by simp [hlen]), happend]
    simp only [hcl2]

/-- C7 witness: a tolerated statement-level SQL error followed by a
failing Close fails the whole batch decode with `Pipeline` at index 1. -/
theorem C7_close_validation_witness :
    batch_decode unitOps [false]
      (⟨none, none, [⟨"error", none, some ⟨"boom", none⟩⟩,
        ⟨"error", none, some ⟨"close boom", none⟩⟩]⟩ :
          PipelineResponse Unit) =
      .error (.Pipeline 1 "close boom" none) :=
  (C7_close_validation unitOps ⟨"ok", some ⟨"close", none⟩, none⟩ 0
    ⟨"close", none⟩ ⟨"x", none⟩ [false]
    [⟨"error", none, some ⟨"boom", none⟩⟩]
    ⟨"error", none, some ⟨"close boom", none⟩⟩
    [.SqlError 0 "boom" none] none none (.Pipeline 1 "close boom" none)
    rfl rfl (by decide) (by decide)).2.2.2.2.2.2

/-- C8: the loop resends the identical payload only on retryable outcomes
(retryable HTTP status or retryably-classified transport failure) while
`attempt < max_retries`; everything else terminates the loop with the
outcome's terminal interpretation (`Transport`/`Http`/parse), so
pipeline-level and decode errors are never retried. -/
theorem C8_retry_policy {F : Type} (opts : ClientOptions)
    (oracle : Nat → AttemptOutcome)
    (parseResp : String → Option (PipelineResponse F))
    (payload : PipelineRequest) :
    (∀ k, k + 1 < (send_pipeline_with_retry opts oracle parseResp
        payload).posts.length →
      retryable_outcome (oracle k) = true ∧ k < opts.max_retries)
    ∧ (∀ p ∈ (send_pipeline_with_retry opts oracle parseResp payload).posts,
        p = payload)
    ∧ 1 ≤ (send_pipeline_with_retry opts oracle parseResp
        payload).posts.length
    ∧ (send_pipeline_with_retry opts oracle parseResp
        payload).posts.length ≤ opts.max_retries + 1
    ∧ (send_pipeline_with_retry opts oracle parseResp payload).result =
        attempt_terminal parseResp
          (oracle ((send_pipeline_with_retry opts oracle parseResp
            payload).posts.length - 1)) := by
  rw [send_pipeline_with_retry]
  obtain ⟨h1, h2, h3, h4, h5, _, _⟩ :=
    retry_loop_spec oracle parseResp payload opts.retry_backoff_ms
      opts.max_retries 0
  refine ⟨?_, h3, h1, h2, ?_⟩
  · intro k hk
    have h := h4 k hk
    simpa using h
  · simpa using h5

/-- C8 witness: one 500 then exhaustion — the single retry is justified
by a retryable status below the budget. -/
theorem C8_retry_policy_witness :
    retryable_outcome (.httpResponse 500 (.ok "oops")) = true ∧ 0 < 1 :=
  (C8_retry_policy ⟨1000, 1, 250⟩ (fun _ => .httpResponse 500 (.ok "oops"))
    (fun _ => (none : Option (PipelineResponse Unit))) ⟨[.Close]⟩).1 0
    (by decide)

lemma into_execute_ok {F : Type} {r : PipelineResult F} {idx : Nat}
    {ex : ExecuteResultW F} (hk : r.kind = "ok")
    (hresp : r.response = some ⟨"execute", some ex⟩) :
    into_execute_result r idx = .ok ex := by
  rw [into_execute_result, if_pos hk, hresp]
  simp

/-- C1: in a batch whose response has the expected length and a valid
Close, every "ok" result maps to `Query`/`Exec` per that statement's
`want_rows` flag, every "error" result with a payload maps to `SqlError`
carrying its own index, and the batch call returns `Ok` — a
statement-level SQL error never fails the whole call. -/
theorem C1_batch_demultiplex {F : Type} (fo : FloatOps F)
    (opts : ClientOptions) (oracle : Nat → AttemptOutcome)
    (parseResp : String → Option (PipelineResponse F))
    (stmts : List (Statement F)) (built : List ExecuteStatement)
    (body : List (PipelineResult F)) (closeR : PipelineResult F)
    (env : ResponseEnvelope F) (outs : List (StatementOutcome F))
    (baton burl : Option String) (bodyStr : String)
    (hbuild : collectExcept
      (fun st => build_execute_statement fo st.sql st.params st.want_rows)
      stmts = .ok built)
    (ho : oracle 0 = .httpResponse 200 (.ok bodyStr))
    (hp : parseResp bodyStr = some ⟨baton, burl, body ++ [closeR]⟩)
    (hlen : body.length = stmts.length)
    (houts : outs.length = stmts.length)
    (hdec : ∀ k, k < stmts.length →
      decode_statement_outcome fo (body.getD k ⟨"", none, none⟩) k
        ((stmts.map fun st => st.want_rows).getD k false) =
        .ok (outs.getD k (.SqlError 0 "" none)))
    (hck : closeR.kind = "ok") (hcr : closeR.response = some env)
    (hce : env.kind = "close") :
    (∀ (r : PipelineResult F) (idx : Nat) (w : Bool) (er : PipelineErrorW),
      r.kind = "error" → r.error = some er →
      decode_statement_outcome fo r idx w =
        .ok (.SqlError idx er.message er.code))
    ∧ (∀ (r : PipelineResult F) (idx : Nat) (ex : ExecuteResultW F)
        (q : QueryResult F),
      r.kind = "ok" → r.response = some ⟨"execute", some ex⟩ →
      decode_query_result fo ex = .ok q →
      decode_statement_outcome fo r idx true = .ok (.Query q))
    ∧ (∀ (r : PipelineResult F) (idx : Nat) (ex : ExecuteResultW F)
        (exr : ExecResult),
      r.kind = "ok" → r.response = some ⟨"execute", some ex⟩ →
      decode_exec_result ex = .ok exr →
      decode_statement_outcome fo r idx false = .ok (.Exec exr))
    ∧ (batch fo opts oracle parseResp stmts).1 = .ok outs := by
  refine ⟨?_, ?_, ?_, ?_⟩
  · intro r idx w er hk her
    rw [decode_statement_outcome, if_neg (by simp [hk]), if_pos hk, her]
  · intro r idx ex q hk hresp hq
    rw [decode_statement_outcome, if_pos hk, into_execute_ok hk hresp]
    simp [hq]
  · intro r idx ex exr hk hresp hex
    rw [decode_statement_outcome, if_pos hk, into_execute_ok hk hresp]
    simp [hex]
  · have hsend := send_success opts oracle parseResp
      ⟨built.map (fun stmt => Request.Execute stmt) ++ [.Close]⟩ bodyStr
      ⟨baton, burl, body ++ [closeR]⟩ ho hp
    have hbd : batch_decode fo (stmts.map fun st => st.want_rows)
        ⟨baton, burl, body ++ [closeR]⟩ = .ok outs := by
      have happend := decode_outcomes_append fo
        (stmts.map fun st => st.want_rows) body [closeR] outs 0
        (by simp [hlen]) (by simp [houts])
        (fun k hk => by simpa using hdec k (by simpa using hk))
      rw [batch_decode, if_neg (by simp [hlen]), happend]
      simp only [ensure_close_ok hck hcr hce]
    rw [batch, hbuild]
    simp only [hsend, hbd]

/-- C1 witness: the spec's example — exec-ok, SQL error, query-ok, close
ok — yields `[Exec _, SqlError 1 _, Query _]` and the call succeeds. -/
theorem C1_batch_demultiplex_witness :
    (batch unitOps ⟨10000, 0, 250⟩ (fun _ => .httpResponse 200 (.ok "resp"))
      (fun _ => some (⟨none, none,
        [⟨"ok", some ⟨"execute",
            some ⟨[], [], 0, none, none, none, none, none⟩⟩, none⟩,
         ⟨"error", none, some ⟨"syntax error", some "SQLITE_ERROR"⟩⟩,
         ⟨"ok", some ⟨"execute",
            some ⟨[], [], 0, none, none, none, none, none⟩⟩, none⟩,
         ⟨"ok", some ⟨"close", none⟩, none⟩]⟩ : PipelineResponse Unit))
      [⟨"DELETE FROM t", .Positional [], false⟩,
       ⟨"BAD SQL", .Positional [], true⟩,
       ⟨"SELECT 1", .Positional [], true⟩]).1 =
      .ok [.Exec ⟨0, none, none, none, none⟩,
           .SqlError 1 "syntax error" (some "SQLITE_ERROR"),
           .Query ⟨[], [], none, none, none, none⟩] :=
  (C1_batch_demultiplex unitOps ⟨10000, 0, 250⟩
    (fun _ => .httpResponse 200 (.ok "resp"))
    (fun _ => some (⟨none, none,
      [⟨"ok", some ⟨"execute",
          some ⟨[], [], 0, none, none, none, none, none⟩⟩, none⟩,
       ⟨"error", none, some ⟨"syntax error", some "SQLITE_ERROR"⟩⟩,
       ⟨"ok", some ⟨"execute",
          some ⟨[], [], 0, none, none, none, none, none⟩⟩, none⟩,
       ⟨"ok", some ⟨"close", none⟩, none⟩]⟩ : PipelineResponse Unit))
    [⟨"DELETE FROM t", .Positional [], false⟩,
     ⟨"BAD SQL", .Positional [], true⟩,
     ⟨"SELECT 1", .Positional [], true⟩]
    [⟨"DELETE FROM t", none, none, false⟩,
     ⟨"BAD SQL", none, none, true⟩,
     ⟨"SELECT 1", none, none, true⟩]
    [⟨"ok", some ⟨"execute",
        some ⟨[], [], 0, none, none, none, none, none⟩⟩, none⟩,
     ⟨"error", none, some ⟨"syntax error", some "SQLITE_ERROR"⟩⟩,
     ⟨"ok", some ⟨"execute",
        some ⟨[], [], 0, none, none, none, none, none⟩⟩, none⟩]
    ⟨"ok", some ⟨"close", none⟩, none⟩ ⟨"close", none⟩
    [.Exec ⟨0, none, none, none, none⟩,
     .SqlError 1 "syntax error" (some "SQLITE_ERROR"),
     .Query ⟨[], [], none, none, none, none⟩]
    none none "resp" rfl rfl rfl rfl rfl (by decide) rfl rfl rfl).2.2.2

end BunnyDb
